import Mathlib

/-!
Verification of the `please` CLI (Rust sources: `src/ui.rs`, `src/main.rs`,
`src/api.rs`, `src/config.rs`).

The interactive core is embedded shallowly:

* the raw keystroke decoder `UI::display_command_and_get_action` (ui.rs 37-132)
  becomes a pure function over an explicit list of read outcomes (a byte or a
  timeout) together with an explicit terminal-settings value;
* the shell invocation builder `run_command` (main.rs 192-228) becomes a
  function from the command text and shell spec to the spawned program and its
  argument vector;
* the interaction loop of `main` (main.rs 93-130) becomes a function from a
  script of per-iteration outcomes to the process exit code.
-/

namespace Please

/-- The terminal settings the program reads and writes: the `ICANON` and `ECHO`
local flags and the `VMIN` / `VTIME` control characters of the termios
structure (ui.rs 54-60). -/
structure Termios where
  icanon : Bool
  echo : Bool
  vmin : Nat
  vtime : Nat
deriving DecidableEq, Repr

/-- Raw mode as configured at ui.rs 58-60:
`new_tio.c_lflag &= !(ICANON | ECHO); c_cc[VMIN] = 0; c_cc[VTIME] = 1`. -/
def rawMode (t : Termios) : Termios :=
  { t with icanon := false, echo := false, vmin := 0, vtime := 1 }

/-- Outcome of one `stdin.read(&mut buf)` call in raw mode: either one byte, or
zero bytes because the `VTIME` timeout elapsed. -/
inductive ReadEvent
  | timeout
  | byte (b : Nat)
deriving DecidableEq, Repr

/-- What a call of `display_command_and_get_action` does, at the granularity the
claims need. `run` is `UserAction::RunCommand`; `quit` is `UserAction::Quit`;
`editHandoff before after` is the hand-off to
`get_from_readline((before, after))` whose result is wrapped in
`UserAction::EditCommand`; `feedbackHandoff` the same for
`UserAction::ProvideFeedback`; `panicked` marks a Rust panic; `noInput` marks
exhaustion of the modelled input stream (the real loop would keep reading). -/
inductive DecodeResult
  | run (command : String)
  | quit
  | editHandoff (before after : String)
  | feedbackHandoff (before after : String)
  | panicked
  | noInput
deriving DecidableEq, Repr

/-- Models `command.split_at(command.len() - 1)` at ui.rs 98, where `len()` is
the UTF-8 byte length. `none` models a panic: on the empty string
`command.len() - 1` underflows, and when the final character occupies more than
one byte the index `len - 1` is not a character boundary, so `split_at`
panics. Otherwise the split yields (all but the last character, the last
character). -/
def splitAtLastByte (s : String) : Option (String × String) :=
  match s.data.reverse with
  | [] => none
  | c :: rest =>
    if c.utf8Size = 1 then some (String.mk rest.reverse, String.mk [c]) else none

/-- The arrow-key branch at ui.rs 84-104, entered after
`tcsetattr(fd, TCSANOW, &old_tio)` has already restored the terminal: left
arrow (`D` = 68) seeds the editor from `splitAtLastByte`, any other arrow seeds
it with the whole candidate before the cursor and an empty tail. -/
def arrowHandoff (old : Termios) (command : String) (b3 : Nat) :
    DecodeResult × Termios :=
  if b3 = 68 then
    match splitAtLastByte command with
    | none => (DecodeResult.panicked, old)
    | some (l, r) => (DecodeResult.editHandoff l r, old)
  else
    (DecodeResult.editHandoff command "", old)

/-- The read loop of ui.rs 67-131, starting in raw mode. The second component
of the result is the terminal settings in force when the call returns. The
branch structure mirrors the source: byte 27 (ESC) starts an escape sequence;
a timeout on the second read returns `UserAction::Quit` (with no restoring
`tcsetattr` call before it, ui.rs 72-74); second byte `[` (91) reads a third
byte, where `A`/`B`/`C`/`D` (65-68) restore the terminal and hand off to the
editor and anything else continues the loop; a non-ESC byte equal to `'\n'` or
`'\r'` (after `buf[0] as char`) restores and runs the candidate; any other
byte restores and hands off to feedback editing seeded with that character. -/
def decodeLoop (old : Termios) (command : String) :
    List ReadEvent → DecodeResult × Termios
  | [] => (DecodeResult.noInput, rawMode old)
  | ReadEvent.timeout :: rest => decodeLoop old command rest
  | ReadEvent.byte b :: rest =>
    if b = 27 then
      match rest with
      | [] => (DecodeResult.noInput, rawMode old)
      | ReadEvent.timeout :: _ => (DecodeResult.quit, rawMode old)
      | ReadEvent.byte b2 :: rest2 =>
        if b2 = 91 then
          match rest2 with
          | [] => (DecodeResult.noInput, rawMode old)
          | ReadEvent.timeout :: rest3 => decodeLoop old command rest3
          | ReadEvent.byte b3 :: rest3 =>
            if b3 = 65 ∨ b3 = 66 ∨ b3 = 67 ∨ b3 = 68 then
              arrowHandoff old command b3
            else
              decodeLoop old command rest3
        else
          decodeLoop old command rest2
    else
      let c := Char.ofNat b
      if c = '\n' ∨ c = '\r' then
        (DecodeResult.run command, old)
      else
        (DecodeResult.feedbackHandoff (String.singleton c) "", old)

/-- `UI::display_command_and_get_action` (ui.rs 37-132): capture `old`, enter
raw mode, run the read loop over the given input stream. -/
def display_command_and_get_action (old : Termios) (command : String)
    (input : List ReadEvent) : DecodeResult × Termios :=
  decodeLoop old command input

/-- A concrete cooked-mode termios value used for concrete evaluations. -/
def oldTio : Termios :=
  { icanon := true, echo := true, vmin := 1, vtime := 0 }

/-- Models Rust `str::split_whitespace` on the decoded character list:
maximal runs of non-whitespace characters, with `acc` the current run held in
reverse. -/
def splitWhitespaceAux : List Char → List Char → List String
  | [], [] => []
  | [], acc => [String.mk acc.reverse]
  | c :: cs, acc =>
    if c.isWhitespace then
      match acc with
      | [] => splitWhitespaceAux cs []
      | _ :: _ => String.mk acc.reverse :: splitWhitespaceAux cs []
    else
      splitWhitespaceAux cs (c :: acc)

/-- `shell.split_whitespace().collect()` at main.rs 194. -/
def split_whitespace (s : String) : List String :=
  splitWhitespaceAux s.data []

/-- Rust `str::contains` for a literal pattern: some suffix of `hay` starts
with `needle`. -/
def strContains (hay needle : String) : Bool :=
  (List.range (hay.data.length + 1)).any fun i =>
    List.isPrefixOf needle.data (hay.data.drop i)

/-- The text prepended at main.rs 205 when the shell is bash or zsh. -/
def shoptPreamble : String := "shopt -s extglob globstar nullglob\n"

/-- `run_command` (main.rs 192-228), up to the point of spawning: returns the
program and the argument vector handed to `Command`, or `none` when the shell
spec has no whitespace-separated parts (`bail!("Invalid shell configuration")`).
When the last part of the shell spec contains `bash` or `zsh`, a `shopt` line
is prepended to the command text (main.rs 204-208). -/
def run_command (command shell : String) : Option (String × List String) :=
  match split_whitespace shell with
  | [] => none
  | p :: ps =>
    let shell_name := (p :: ps).getLast (List.cons_ne_nil p ps)
    let command2 :=
      if strContains shell_name "bash" || strContains shell_name "zsh" then
        shoptPreamble ++ command
      else
        command
    some (p, ps ++ ["-c", command2])

/-- One iteration's externally determined outcomes for the interaction loop of
`main` (main.rs 93-130): which `UserAction` the decoder produced and, where
relevant, whether `run_command` succeeded or what `refine_command` returned
(`none` models an `Err`). -/
inductive SessionEvent
  | runCmd (execOk : Bool)
  | editCmd (edited : String) (execOk : Bool)
  | feedbackEv (feedback : String) (refined : Option String)
  | quitEv
deriving DecidableEq, Repr

/-- Exit code produced by the interaction loop of `main` (main.rs 93-132).
`RunCommand`/`EditCommand`: a failing `run_command` propagates through `?`, so
`main` returns `Err` and the process exits 1, otherwise the loop breaks and
`main` returns `Ok(())` (exit 0). A failed refine calls `show_error` and then
`break` (main.rs 120-123), after which `main` returns `Ok(())` — exit 0. `Quit`
breaks the loop — exit 0. `none` marks an exhausted event script (the real
loop would keep iterating). -/
def interactionLoop (current : String) : List SessionEvent → Option Nat
  | [] => none
  | SessionEvent.runCmd ok :: _ => if ok then some 0 else some 1
  | SessionEvent.editCmd _ ok :: _ => if ok then some 0 else some 1
  | SessionEvent.feedbackEv _ (some newCmd) :: rest => interactionLoop newCmd rest
  | SessionEvent.feedbackEv _ none :: _ => some 0
  | SessionEvent.quitEv :: _ => some 0

/-- Exit code of `main` (main.rs 14-133): config load failure exits 1
(main.rs 21-24), initial `request_command` failure exits 1 (main.rs 86-89),
otherwise the interaction loop runs on the returned command. -/
def mainExitCode (loadOk : Bool) (requested : Option String)
    (events : List SessionEvent) : Option Nat :=
  if loadOk = false then some 1
  else
    match requested with
    | none => some 1
    | some cmd => interactionLoop cmd events

lemma splitAtLastByte_spec (s l r : String)
    (h : splitAtLastByte s = some (l, r)) :
    l.data ++ r.data = s.data ∧ r.data.length = 1 := by
  unfold splitAtLastByte at h
  split at h
  · simp at h
  next c rest heq =>
    split at h
    · injection h with h2
      injection h2 with hl hr
      subst hl
      subst hr
      refine ⟨?_, rfl⟩
      have hs : s.data = rest.reverse ++ [c] := by
        have h3 := congrArg List.reverse heq
        simpa using h3
      exact hs.symm
    · simp at h

lemma charOfNat_toNat (b : Nat) (hb : b < 55296) :
    (Char.ofNat b).toNat = b := by
  have hv : b.isValidChar := Or.inl hb
  unfold Char.ofNat
  rw [dif_pos hv]
  rfl

/-- C1: claimed invariant — every exit path of `display_command_and_get_action`
restores the captured terminal mode before returning. The code violates it on
the standalone-Escape path: ESC followed by a read timeout returns
`UserAction::Quit` at ui.rs 74 with no `tcsetattr(fd, TCSANOW, &old_tio)`
before it, so the call returns with the terminal still in raw mode. -/
theorem C1_quit_path_skips_restore :
    display_command_and_get_action oldTio "ls"
        [ReadEvent.byte 27, ReadEvent.timeout]
      = (DecodeResult.quit, rawMode oldTio) ∧ rawMode oldTio ≠ oldTio :=
  ⟨rfl, by decide⟩

/-- C2 counterexample: with shell `bash` and command text `echo hi`, the `-c`
argument is the command with a `shopt` line prepended, not the supplied text
verbatim. -/
theorem C2_bash_prepends_shopt :
    run_command "echo hi" "bash"
      = some ("bash", ["-c", "shopt -s extglob globstar nullglob\necho hi"]) ∧
    "shopt -s extglob globstar nullglob\necho hi" ≠ "echo hi" := by
  constructor
  · rfl
  · decide

/-- C2 (amended): a shell spec with no whitespace-separated parts fails without
spawning anything; otherwise executing spawns the first part of the shell spec
with the remaining parts, then `-c`, then the command text — verbatim exactly
when the last part of the shell spec contains neither `bash` nor `zsh`; when
it contains either, the line `shopt -s extglob globstar nullglob` is prepended
to the text. -/
theorem C2_shell_invocation (command shell : String) :
    (split_whitespace shell = [] → run_command command shell = none) ∧
    (∀ p ps, split_whitespace shell = p :: ps →
      (strContains ((p :: ps).getLast (List.cons_ne_nil p ps)) "bash" = false →
       strContains ((p :: ps).getLast (List.cons_ne_nil p ps)) "zsh" = false →
       run_command command shell = some (p, ps ++ ["-c", command])) ∧
      (strContains ((p :: ps).getLast (List.cons_ne_nil p ps)) "bash" = true ∨
       strContains ((p :: ps).getLast (List.cons_ne_nil p ps)) "zsh" = true →
       run_command command shell
         = some (p, ps ++ ["-c", shoptPreamble ++ command]))) := by
  constructor
  · intro hnil
    unfold run_command
    rw [hnil]
  · intro p ps hparts
    constructor
    · intro hb hz
      unfold run_command
      rw [hparts]
      simp [hb, hz]
    · intro h
      unfold run_command
      rw [hparts]
      rcases h with h | h <;> simp [h]

/-- C2 witness: the default shell `/usr/bin/env sh` runs the edited text
verbatim, and the empty shell spec spawns nothing. -/
theorem C2_shell_invocation_witness :
    (run_command "echo hi" "/usr/bin/env sh"
      = some ("/usr/bin/env", ["sh", "-c", "echo hi"])) ∧
    run_command "echo hi" "" = none :=
  ⟨((C2_shell_invocation "echo hi" "/usr/bin/env sh").2 "/usr/bin/env" ["sh"]
      (by decide)).1 (by decide) (by decide),
   (C2_shell_invocation "echo hi" "").1 (by decide)⟩

/-- C3 counterexample: when the refine call fails, `main` shows the error and
breaks the loop (main.rs 120-123), then returns `Ok(())`, so the process exits
with status 0, not non-zero as claimed. -/
theorem C3_refine_failure_exits_zero :
    mainExitCode true (some "rm -rf /")
        [SessionEvent.feedbackEv "n" none] = some 0 := rfl

/-- C3 (amended): the exit status is 0 on successful execution, on clean quit,
and also on refine failure (the error is reported but the loop merely breaks
and `main` returns `Ok(())`); it is non-zero (1) on load failure, on initial
request failure, and on execute failure. -/
theorem C3_exit_codes (events : List SessionEvent) (cmd fb edited : String) :
    mainExitCode false none events = some 1 ∧
    mainExitCode true none events = some 1 ∧
    mainExitCode true (some cmd) (SessionEvent.runCmd false :: events)
      = some 1 ∧
    mainExitCode true (some cmd) (SessionEvent.editCmd edited false :: events)
      = some 1 ∧
    mainExitCode true (some cmd) (SessionEvent.runCmd true :: events)
      = some 0 ∧
    mainExitCode true (some cmd) (SessionEvent.quitEv :: events) = some 0 ∧
    mainExitCode true (some cmd) (SessionEvent.feedbackEv fb none :: events)
      = some 0 :=
  ⟨rfl, rfl, rfl, rfl, rfl, rfl, rfl⟩

/-- C4 counterexample: on candidate `ab`, right arrow (ESC `[` `C`) seeds the
editor with `ab` before the cursor — not "at the start with no text before the
cursor" — and left arrow (ESC `[` `D`) seeds it with `a` before and `b` after
the cursor — not "at the end of the text". -/
theorem C4_seed_positions_differ :
    (display_command_and_get_action oldTio "ab"
        [ReadEvent.byte 27, ReadEvent.byte 91, ReadEvent.byte 67]).1
      = DecodeResult.editHandoff "ab" "" ∧
    (display_command_and_get_action oldTio "ab"
        [ReadEvent.byte 27, ReadEvent.byte 91, ReadEvent.byte 68]).1
      = DecodeResult.editHandoff "a" "b" ∧
    ("ab" : String) ≠ "" := by
  refine ⟨rfl, rfl, by decide⟩

/-- C4 (amended): on ESC, `[`, then a third byte in A/B/C/D, the decoder
restores the original terminal mode and hands off to the line editor seeded
from the candidate: for left arrow (D) the cursor is placed before the final
character (all but the last character before the cursor, the single last
character after it); for up/down/right (A/B/C) the full candidate is before
the cursor with an empty tail. -/
theorem C4_arrow_seed (old : Termios) (command l r : String)
    (hsplit : splitAtLastByte command = some (l, r)) :
    (∀ b3, b3 = 65 ∨ b3 = 66 ∨ b3 = 67 →
      display_command_and_get_action old command
          [ReadEvent.byte 27, ReadEvent.byte 91, ReadEvent.byte b3]
        = (DecodeResult.editHandoff command "", old)) ∧
    display_command_and_get_action old command
        [ReadEvent.byte 27, ReadEvent.byte 91, ReadEvent.byte 68]
      = (DecodeResult.editHandoff l r, old) ∧
    l.data ++ r.data = command.data ∧ r.data.length = 1 := by
  obtain ⟨happ, hlen⟩ := splitAtLastByte_spec command l r hsplit
  refine ⟨?_, ?_, happ, hlen⟩
  · rintro b3 (rfl | rfl | rfl) <;> rfl
  · have h68 : display_command_and_get_action old command
        [ReadEvent.byte 27, ReadEvent.byte 91, ReadEvent.byte 68]
        = arrowHandoff old command 68 := rfl
    rw [h68]
    unfold arrowHandoff
    rw [if_pos rfl, hsplit]

/-- C4 witness: candidate `ab` with each arrow key. -/
theorem C4_arrow_seed_witness :
    display_command_and_get_action oldTio "ab"
        [ReadEvent.byte 27, ReadEvent.byte 91, ReadEvent.byte 68]
      = (DecodeResult.editHandoff "a" "b", oldTio) :=
  (C4_arrow_seed oldTio "ab" "a" "b" (by decide)).2.1

/-- C5: for every candidate text, a carriage return (13) or line feed (10)
restores the original terminal mode and yields `RunCommand` carrying the
candidate unchanged (ui.rs 113-116). -/
theorem C5_enter_runs_candidate (old : Termios) (t : String) (b : Nat)
    (hb : b = 10 ∨ b = 13) :
    display_command_and_get_action old t [ReadEvent.byte b]
      = (DecodeResult.run t, old) := by
  rcases hb with rfl | rfl <;> rfl

/-- C5 witness: line feed on candidate `ls`. -/
theorem C5_enter_runs_candidate_witness :
    display_command_and_get_action oldTio "ls" [ReadEvent.byte 10]
      = (DecodeResult.run "ls", oldTio) :=
  C5_enter_runs_candidate oldTio "ls" 10 (Or.inl rfl)

/-- C6: ESC followed by a timeout on the second read emits `Quit`, whatever
input might come later (ui.rs 72-74). -/
theorem C6_standalone_escape_quits (old : Termios) (t : String)
    (rest : List ReadEvent) :
    (display_command_and_get_action old t
        (ReadEvent.byte 27 :: ReadEvent.timeout :: rest)).1
      = DecodeResult.quit := rfl

/-- C7: ESC, `[`, `D` on candidate `ls -la` restores the terminal and seeds
the editor with `ls -l` before the cursor and `a` after it. -/
theorem C7_left_arrow_on_ls_la :
    display_command_and_get_action oldTio "ls -la"
        [ReadEvent.byte 27, ReadEvent.byte 91, ReadEvent.byte 68]
      = (DecodeResult.editHandoff "ls -l" "a", oldTio) := rfl

/-- C8: for every candidate text, ESC, `[`, `C` (right arrow) restores the
terminal and seeds the editor with the full candidate before the cursor and an
empty tail. -/
theorem C8_right_arrow_full_before (old : Termios) (command : String) :
    display_command_and_get_action old command
        [ReadEvent.byte 27, ReadEvent.byte 91, ReadEvent.byte 67]
      = (DecodeResult.editHandoff command "", old) := rfl

/-- C9: for every first byte that is neither ESC (27) nor CR (13) nor LF (10),
the decoder restores the original terminal mode and hands off to the line
editor seeded with exactly that byte's character as the whole buffer, the
cursor after it, to be wrapped in `ProvideFeedback` (ui.rs 111-128). -/
theorem C9_printable_seeds_feedback (old : Termios) (command : String)
    (b : Nat) (hlt : b < 256) (h27 : b ≠ 27) (h10 : b ≠ 10) (h13 : b ≠ 13) :
    display_command_and_get_action old command [ReadEvent.byte b]
      = (DecodeResult.feedbackHandoff (String.singleton (Char.ofNat b)) "",
         old) := by
  have hn : ¬ (Char.ofNat b = '\n' ∨ Char.ofNat b = '\r') := by
    have htn : (Char.ofNat b).toNat = b :=
      charOfNat_toNat b (by omega)
    rintro (h | h)
    · exact h10 (by rw [← htn, h]; rfl)
    · exact h13 (by rw [← htn, h]; rfl)
  unfold display_command_and_get_action decodeLoop
  rw [if_neg h27]
  simp only [if_neg hn]

/-- C9 witness: byte 110 (`n`) on candidate `ls`. -/
theorem C9_printable_seeds_feedback_witness :
    display_command_and_get_action oldTio "ls" [ReadEvent.byte 110]
      = (DecodeResult.feedbackHandoff (String.singleton (Char.ofNat 110)) "",
         oldTio) :=
  C9_printable_seeds_feedback oldTio "ls" 110 (by decide) (by decide)
    (by decide) (by decide)

/-- C10: left arrow on the empty candidate panics — `command.len() - 1`
underflows before `split_at` — and left arrow on a candidate whose final
character is multi-byte UTF-8 panics too, since byte index `len - 1` is not a
character boundary; the decoder is not total over candidate texts. -/
theorem C10_left_arrow_panics :
    (display_command_and_get_action oldTio ""
        [ReadEvent.byte 27, ReadEvent.byte 91, ReadEvent.byte 68]).1
      = DecodeResult.panicked ∧
    (display_command_and_get_action oldTio "café"
        [ReadEvent.byte 27, ReadEvent.byte 91, ReadEvent.byte 68]).1
      = DecodeResult.panicked :=
  ⟨rfl, rfl⟩
